import Mathlib

/-!
Verification development for the ERC725 schema-driven codec
(`src/src/index.ts` of the repository, the `ERC725` facade class).

Bytes are modelled as `List Nat` (each element `< 256` where it matters),
hex keys and URLs as `String`, JS objects as association lists, and
fallible/async JS code as `Except Err`.  Library modules imported by
`index.ts` from `./lib/*` are not part of the repository snapshot; they
are modelled from the specification and marked as such in their doc
comments.  Everything defined directly from `index.ts` carries the
source line numbers it embeds.
-/

deriving instance DecidableEq for Except

/-- A raw byte string: list of byte values. -/
abbrev Bytes := List Nat

/-- One ERC725 JSON schema descriptor (`ERC725JSONSchema` in the source). -/
structure Schema where
  name : String
  key : String
  keyType : String
  valueType : String
  valueContent : String
deriving DecidableEq, Repr

/-- A raw key/value pair as returned by the store provider
(`KeyValuePair` in the source); `value = none` models JS `null`. -/
structure KeyValuePair where
  key : String
  value : Option Bytes
deriving DecidableEq, Repr

/-- Error outcomes of the embedded operations. -/
inductive Err
  | schemaNotFound
  | badArrayKeyType
  | fetchFailed
  | providerFailed
  | encodingError
  | missingAddressOrProvider
deriving DecidableEq, Repr

/-- Scalar decoded values, the tagged union keyed by the schema's
`valueContent`: plain scalars, raw bytes, or an external reference
(`URLDataWithHash` = hash function name, content hash, url). -/
inductive SVal
  | str : String → SVal
  | num : Nat → SVal
  | boolean : Bool → SVal
  | addr : String → SVal
  | bytes : Bytes → SVal
  | urlData : String → Bytes → String → SVal
deriving DecidableEq, Repr

/-- A decoded value: a scalar, or the ordered element sequence of an
`Array` descriptor (whose elements are scalar-typed). -/
inductive DVal
  | scalar : SVal → DVal
  | arr : List SVal → DVal
deriving DecidableEq, Repr

/-! ### Character-level helpers (JS string semantics) -/

/-- JS `String.prototype.toLowerCase`, modelled for the ASCII range the
schema keywords use. -/
def jsCharLower (c : Char) : Char :=
  if 'A' ≤ c ∧ c ≤ 'Z' then Char.ofNat (c.toNat + 32) else c

/-- Lower-case a string, ASCII-wise, as JS `toLowerCase` does on the
schema keywords appearing in this code base. -/
def jsToLower (s : String) : String :=
  String.mk (s.data.map jsCharLower)

/-- First index at which `pat` occurs inside `s` (JS `String.indexOf`,
`none` standing for `-1`). -/
def listIndexOf (s pat : List Char) : Option Nat :=
  match s with
  | [] => if pat.isEmpty then some 0 else none
  | _ :: t => if pat.isPrefixOf s then some 0 else (listIndexOf t pat).map (· + 1)

/-- JS `String.prototype.replace` with a string pattern: replaces only
the first occurrence, leaves the string unchanged when absent. -/
def replaceFirstL (s pat rep : List Char) : List Char :=
  match listIndexOf s pat with
  | none => s
  | some i => s.take i ++ rep ++ s.drop (i + pat.length)

/-- `listIndexOf` on strings (JS `indexOf`; `none` = `-1`). -/
def strIndexOf (s pat : String) : Option Nat :=
  listIndexOf s.data pat.data

/-- JS `String.prototype.replace` on strings (first occurrence only). -/
def replaceFirstStr (s pat rep : String) : String :=
  String.mk (replaceFirstL s.data pat.data rep.data)

/-! ### UTF-8 codec

Modelled from the spec: `valueContent: String` stores the UTF-8 bytes
of the string (§4.3, Scenario A); the concrete `lib/utils` encoder is
not part of the repository snapshot. -/

/-- UTF-8 encoding of one unicode scalar value. -/
def utf8EncodeChar (c : Char) : Bytes :=
  let n := c.toNat
  if n < 0x80 then [n]
  else if n < 0x800 then [0xC0 + n / 64, 0x80 + n % 64]
  else if n < 0x10000 then
    [0xE0 + n / 4096, 0x80 + (n / 64) % 64, 0x80 + n % 64]
  else
    [0xF0 + n / 0x40000, 0x80 + (n / 4096) % 64, 0x80 + (n / 64) % 64, 0x80 + n % 64]

/-- UTF-8 encoding of a string. -/
def utf8Encode (s : String) : Bytes :=
  s.data.flatMap utf8EncodeChar

/-- Continuation-byte handling for a 2-byte UTF-8 sequence. -/
def utf8Decode2 (b0 b1 : Nat) (tailRes : Option (List Char)) : Option (List Char) :=
  if (0x80 ≤ b1 ∧ b1 < 0xC0) ∧ 0x80 ≤ (b0 - 0xC0) * 64 + (b1 - 0x80) then
    tailRes.map (fun cs => Char.ofNat ((b0 - 0xC0) * 64 + (b1 - 0x80)) :: cs)
  else none

/-- Continuation-byte handling for a 3-byte UTF-8 sequence. -/
def utf8Decode3 (b0 b1 b2 : Nat) (tailRes : Option (List Char)) : Option (List Char) :=
  if (0x80 ≤ b1 ∧ b1 < 0xC0) ∧ (0x80 ≤ b2 ∧ b2 < 0xC0) ∧
      0x800 ≤ (b0 - 0xE0) * 4096 + (b1 - 0x80) * 64 + (b2 - 0x80) ∧
      ((b0 - 0xE0) * 4096 + (b1 - 0x80) * 64 + (b2 - 0x80) < 0xD800 ∨
        0xE000 ≤ (b0 - 0xE0) * 4096 + (b1 - 0x80) * 64 + (b2 - 0x80)) then
    tailRes.map (fun cs =>
      Char.ofNat ((b0 - 0xE0) * 4096 + (b1 - 0x80) * 64 + (b2 - 0x80)) :: cs)
  else none

/-- Continuation-byte handling for a 4-byte UTF-8 sequence. -/
def utf8Decode4 (b0 b1 b2 b3 : Nat) (tailRes : Option (List Char)) : Option (List Char) :=
  if (0x80 ≤ b1 ∧ b1 < 0xC0) ∧ (0x80 ≤ b2 ∧ b2 < 0xC0) ∧ (0x80 ≤ b3 ∧ b3 < 0xC0) ∧
      0x10000 ≤ (b0 - 0xF0) * 0x40000 + (b1 - 0x80) * 4096 + (b2 - 0x80) * 64 + (b3 - 0x80) ∧
      (b0 - 0xF0) * 0x40000 + (b1 - 0x80) * 4096 + (b2 - 0x80) * 64 + (b3 - 0x80) < 0x110000 then
    tailRes.map (fun cs =>
      Char.ofNat ((b0 - 0xF0) * 0x40000 + (b1 - 0x80) * 4096 + (b2 - 0x80) * 64 + (b3 - 0x80)) :: cs)
  else none

/-- Fuel-indexed UTF-8 decoding of a byte list into characters; `none`
on malformed input.  Missing continuation bytes read as `0`, which
always fails the continuation-range guard, so a truncated sequence
decodes to `none`.  The fuel only has to dominate the list length
(`utf8DecodeF_fuel_eq`); it makes the recursion structural. -/
def utf8DecodeF : Nat → Bytes → Option (List Char)
  | _, [] => some []
  | 0, _ :: _ => none
  | f + 1, b0 :: rest =>
    if b0 < 0x80 then
      (utf8DecodeF f rest).map (fun cs => Char.ofNat b0 :: cs)
    else if b0 < 0xC0 then none
    else if b0 < 0xE0 then
      utf8Decode2 b0 (rest.headD 0) (utf8DecodeF f (rest.drop 1))
    else if b0 < 0xF0 then
      utf8Decode3 b0 (rest.headD 0) ((rest.drop 1).headD 0) (utf8DecodeF f (rest.drop 2))
    else
      utf8Decode4 b0 (rest.headD 0) ((rest.drop 1).headD 0) ((rest.drop 2).headD 0)
        (utf8DecodeF f (rest.drop 3))

/-- UTF-8 decoding of a byte list into characters. -/
def utf8DecodeList (l : Bytes) : Option (List Char) :=
  utf8DecodeF l.length l

/-- UTF-8 decoding of bytes into a string. -/
def utf8Decode (b : Bytes) : Option String :=
  (utf8DecodeList b).map String.mk

/-! ### Big-endian fixed-width integers -/

/-- `k`-byte big-endian representation of `n` (low `8k` bits). -/
def natToBEBytes : Nat → Nat → Bytes
  | 0, _ => []
  | k + 1, n => natToBEBytes k (n / 256) ++ [n % 256]

/-- Big-endian byte list to natural number. -/
def beBytesToNat (l : Bytes) : Nat :=
  l.foldl (fun a b => a * 256 + b) 0

/-! ### Hex strings -/

/-- Lower-case hex digit for a nibble. -/
def natToHexChar (n : Nat) : Char :=
  if n < 10 then Char.ofNat (48 + n) else Char.ofNat (87 + n)

/-- Value of a lower-case hex digit character, `none` otherwise. -/
def hexCharToNat (c : Char) : Option Nat :=
  if '0' ≤ c ∧ c ≤ '9' then some (c.toNat - 48)
  else if 'a' ≤ c ∧ c ≤ 'f' then some (c.toNat - 87)
  else none

/-- Hex characters (two per byte) of a byte list. -/
def bytesToHexChars (b : Bytes) : List Char :=
  b.foldr (fun x acc => natToHexChar (x / 16) :: natToHexChar (x % 16) :: acc) []

/-- `0x`-prefixed lower-case hex string of a byte list. -/
def bytesToHex0x (b : Bytes) : String :=
  String.mk ('0' :: 'x' :: bytesToHexChars b)

/-- Parse pairs of hex characters into bytes. -/
def parseHexPairs : List Char → Option Bytes
  | [] => some []
  | c0 :: c1 :: r =>
    match hexCharToNat c0, hexCharToNat c1, parseHexPairs r with
    | some a, some b, some t => some ((a * 16 + b) :: t)
    | _, _, _ => none
  | [_] => none

/-- Parse a `0x`-prefixed hex string into bytes. -/
def parseHex0x (s : String) : Option Bytes :=
  match s.data with
  | '0' :: 'x' :: r => parseHexPairs r
  | _ => none

/-! ### Value codec

Modelled from the spec: the `encodeData`/`decodeData`/`decodeKeyValue`
helpers live in `lib/utils`, which is not part of the repository
snapshot; §4.3 and §6 of the spec fix the layouts embedded here. -/

/-- Modelled from the spec: 4-byte hash-function selector stored in
front of a `JSONURL`/`ASSETURL` value (§6); the two supported
algorithms of `lib/constants` (`SUPPORTED_HASH_FUNCTION_STRINGS`). -/
def selectorOf : String → Option Bytes
  | "keccak256(utf8)" => some [111, 53, 124, 106]
  | "keccak256(bytes)" => some [128, 25, 249, 177]
  | _ => none

/-- Modelled from the spec: name of a hash-function selector;
an unrecognized selector is a first-class outcome, not a fault. -/
def selectorName (b : Bytes) : Option String :=
  if b = [111, 53, 124, 106] then some "keccak256(utf8)"
  else if b = [128, 25, 249, 177] then some "keccak256(bytes)"
  else none

/-- The string name of the byte-oriented digest
(`SUPPORTED_HASH_FUNCTION_STRINGS.KECCAK256_BYTES` in `lib/constants`,
modelled from the spec). -/
def keccak256BytesName : String := "keccak256(bytes)"

/-- The supported `valueType`/`valueContent` combinations of the
modelled codec (modelled from the spec §4.3: integer, boolean,
address-as-string, UTF-8 string, raw bytes, external references). -/
def supportedCombos : List (String × String) :=
  [("string", "String"), ("uint256", "Number"), ("bool", "Boolean"),
   ("address", "Address"), ("bytes", "Bytes"),
   ("bytes", "JSONURL"), ("bytes", "AssetURL")]

/-- Internal dispatch tag for one supported combination (`JSONURL` and
`ASSETURL` share the packed-reference codec). -/
inductive Combo
  | cstr
  | cnum
  | cbool
  | caddr
  | cbytes
  | curl
deriving DecidableEq, Repr

/-- Map a `valueType`/`valueContent` pair to its codec tag; `none` for
unsupported combinations. -/
def comboOf (vt vc : String) : Option Combo :=
  if vt = "string" ∧ vc = "String" then some .cstr
  else if vt = "uint256" ∧ vc = "Number" then some .cnum
  else if vt = "bool" ∧ vc = "Boolean" then some .cbool
  else if vt = "address" ∧ vc = "Address" then some .caddr
  else if vt = "bytes" ∧ vc = "Bytes" then some .cbytes
  else if vt = "bytes" ∧ (vc = "JSONURL" ∨ vc = "AssetURL") then some .curl
  else none

/-- Shape constraint a value must satisfy to be encodable under a
codec tag (spec §4.3: encoding validates the value's shape). -/
def shapeOkC : Combo → SVal → Prop
  | .cstr, .str _ => True
  | .cnum, .num n => n < 2 ^ 256
  | .cbool, .boolean _ => True
  | .caddr, .addr s =>
      ∃ b : Bytes, b.length = 20 ∧ (∀ x ∈ b, x < 256) ∧ s = bytesToHex0x b
  | .cbytes, .bytes b => ∀ x ∈ b, x < 256
  | .curl, .urlData hf h _ =>
      (selectorOf hf).isSome ∧ h.length = 32 ∧ ∀ x ∈ h, x < 256
  | _, _ => False

/-- Shape constraint for a `valueType`/`valueContent` combination. -/
def shapeOk (vt vc : String) (v : SVal) : Prop :=
  match comboOf vt vc with
  | some co => shapeOkC co v
  | none => False

/-- Encode one value under a codec tag; `none` models `EncodingError`
(value shape mismatch). -/
def encodeKV : Combo → SVal → Option Bytes
  | .cstr, .str s => some (utf8Encode s)
  | .cnum, .num n => if n < 2 ^ 256 then some (natToBEBytes 32 n) else none
  | .cbool, .boolean b => some [if b then 1 else 0]
  | .caddr, .addr s =>
      (parseHex0x s).bind (fun b => if b.length = 20 then some b else none)
  | .cbytes, .bytes b => if ∀ x ∈ b, x < 256 then some b else none
  | .curl, .urlData hf h url =>
      (selectorOf hf).bind (fun sel =>
        if h.length = 32 ∧ ∀ x ∈ h, x < 256 then some (sel ++ h ++ utf8Encode url) else none)
  | _, _ => none

/-- Modelled from the spec (§4.3, §6): encode one value under a
`valueType`/`valueContent` combination; `none` models `EncodingError`
(value shape mismatch or unsupported combination). -/
def encodeKeyValue (vt vc : String) (v : SVal) : Option Bytes :=
  (comboOf vt vc).bind (fun co => encodeKV co v)

/-- Unpack `[4-byte selector][32-byte hash][UTF-8 url]` (spec §6); an
unrecognized selector marks the hash function `"unsupported"` instead
of failing (spec §4.3). -/
def decodeURLData : Option Bytes → Option SVal
  | none => none
  | some b =>
    if 36 ≤ b.length then
      match utf8Decode (b.drop 36) with
      | some url =>
        match selectorName (b.take 4) with
        | some hf => some (.urlData hf ((b.drop 4).take 32) url)
        | none => some (.urlData "unsupported" ((b.drop 4).take 32) url)
      | none => none
    else none

/-- Decode one raw value under a codec tag.  `none` input models an
unset (`null`) store entry and decodes to the type's neutral value for
numeric, string and boolean contents (§4.3 tie-break policy), and to
JS `null` for address, bytes and external-reference contents (the
facade's unset-external path, `index.ts` line 275). -/
def decodeKV : Combo → Option Bytes → Option SVal
  | .cstr, none => some (.str "")
  | .cstr, some b => (utf8Decode b).map .str
  | .cnum, none => some (.num 0)
  | .cnum, some b => some (.num (beBytesToNat b))
  | .cbool, none => some (.boolean false)
  | .cbool, some b => some (.boolean (beBytesToNat b != 0))
  | .caddr, none => none
  | .caddr, some b => if b.length = 20 then some (.addr (bytesToHex0x b)) else none
  | .cbytes, none => none
  | .cbytes, some b => some (.bytes b)
  | .curl, b? => decodeURLData b?

/-- Modelled from the spec (§4.3, §6): decode one raw value under a
`valueType`/`valueContent` combination (unsupported combinations
decode to `none`). -/
def decodeKeyValue (vt vc : String) (b? : Option Bytes) : Option SVal :=
  match comboOf vt vc with
  | some co => decodeKV co b?
  | none => none

/-! ### Association-list helpers (JS object semantics) -/

/-- Look up a key in a JS-object-as-association-list. -/
def lookupStr {α : Type} (l : List (String × α)) (k : String) : Option α :=
  (l.find? (fun p => p.1 == k)).map (·.2)

/-- JS object assignment `o[k] = v`: overwrite in place when the key
exists, append otherwise. -/
def objInsert {α : Type} (l : List (String × α)) (k : String) (v : α) : List (String × α) :=
  if (l.find? (fun p => p.1 == k)).isSome then
    l.map (fun p => if p.1 == k then (k, v) else p)
  else l ++ [(k, v)]

/-! ### Key derivation for array elements -/

/-- Base-16 digits (`k` of them, big-endian) of `n`. -/
def natToHexDigits : Nat → Nat → List Nat
  | 0, _ => []
  | k + 1, n => natToHexDigits k (n / 16) ++ [n % 16]

/-- 32 lower-case hex characters of an index (16-byte big-endian). -/
def hexPad32 (i : Nat) : List Char :=
  (natToHexDigits 32 i).map natToHexChar

/-- Modelled from the spec (§4.1, §6): `deriveArrayElementKey` — the
element key keeps the high-order half of the base key (`0x` plus 32
hex characters) and packs the big-endian index into the low-order
16-byte slice.  `encodeArrayKey` of `lib/utils` is not part of the
repository snapshot. -/
def encodeArrayKey (key : String) (index : Nat) : String :=
  String.mk (key.data.take 34 ++ hexPad32 index)

/-! ### Schema registry -/

/-- Modelled from the spec (§4.2): `getSchemaElement` of `lib/utils`
(not part of the repository snapshot) resolves a name or key to the
first descriptor whose `key` equals the input key or whose `name`
equals the input name, and fails with `SchemaNotFoundError` otherwise
(the spec requires this failure to propagate to the caller). -/
def getSchemaElement (schemas : List Schema) (q : String) : Except Err Schema :=
  match schemas.find? (fun s => s.name == q || s.key == q) with
  | some s => .ok s
  | none => .error .schemaNotFound

/-- `ERC725.validateSchemas` (`index.ts` lines 122-135): keep exactly
the descriptors whose supplied `key` equals the canonical key derived
from their `name`; mismatches are skipped with a diagnostic.  The key
derivation `encodeKeyName` lives in `lib/encodeKeyName`, which is not
part of the repository snapshot, so it is a parameter `ekn` here
(modelled from the spec §4.1: a deterministic hash of the name). -/
def validateSchemas (ekn : String → String) (schemas : List Schema) : List Schema :=
  schemas.filter (fun schema => schema.key == ekn schema.name)

/-! ### Instance options and the environment of collaborators -/

/-- The default IPFS gateway of the constructor (`index.ts` line 102). -/
def defaultIpfsGateway : String := "https://cloudflare-ipfs.com/ipfs/"

/-- Modelled from the spec: `convertIPFSGatewayUrl` of `lib/utils` is
not part of the repository snapshot; the spec constrains only that a
configured gateway such as `https://gw/ipfs/` is used as the substitution
target (Scenario C), so the normalization is modelled as the identity. -/
def convertIPFSGatewayUrl (g : String) : String := g

/-- The `options` field the `ERC725` constructor builds
(`index.ts` lines 73-113). -/
structure ERC725Options where
  schemas : List Schema
  address : Option String
  ipfsGateway : String
deriving Repr

/-- The external collaborators (spec §6): the digest table (keyed by
hash-function name, `none` = unsupported), the content fetcher (its
`Except.error` models a transport failure; fetched content — raw bytes
or parsed JSON alike — is represented by its byte string), and the
store provider (`getData` for one key, `getAllData` batched). -/
structure Env where
  digests : String → Option (Bytes → Bytes)
  fetch : String → Except Unit Bytes
  providerGetData : String → String → Option Bytes
  providerGetAllData : String → List String → Except Unit (List KeyValuePair)

/-- The `ERC725` constructor (`index.ts` lines 88-113): filters the
schemas through `validateSchemas` and picks the IPFS gateway from the
config when one is supplied (JS truthiness: an empty string falls back
to the default). -/
def mkERC725 (ekn : String → String) (schemas : List Schema)
    (address : Option String) (configIpfsGateway : Option String) : ERC725Options :=
  { schemas := validateSchemas ekn schemas
    address := address
    ipfsGateway :=
      match configIpfsGateway with
      | some g => if g != "" then convertIPFSGatewayUrl g else defaultIpfsGateway
      | none => defaultIpfsGateway }

/-- Models the `isAddress` check of the external `web3-utils`
collaborator at the granularity the facade needs: a `0x`-prefixed
42-character string. -/
def isAddressStr (s : String) : Bool :=
  s.data.length == 42 && "0x".data.isPrefixOf s.data

/-- `ERC725.getAddressAndProvider` (`index.ts` lines 553-565): a
missing or malformed target address aborts the call (the provider
collaborator is always present in `Env`). -/
def getAddressAndProvider (opts : ERC725Options) : Except Err String :=
  match opts.address with
  | none => .error .missingAddressOrProvider
  | some a => if isAddressStr a then .ok a else .error .missingAddressOrProvider

/-- The `this.options.address as string` coercion used by the data
operations. -/
def addressOf (opts : ERC725Options) : String :=
  opts.address.getD ""

/-! ### Collection-level codec -/

/-- The raw material `decodeData` receives per key: either one raw
store value, or (for assembled arrays) a list of key/value entries
(length entry plus element entries). -/
inductive RawInput
  | raw : Option Bytes → RawInput
  | entries : List KeyValuePair → RawInput
deriving DecidableEq, Repr

/-- Modelled from the spec (§4.3): `decodeKey` of `lib/utils` (not part
of the repository snapshot).  For an `Array` descriptor it decodes a
collection of raw entries — the length entry at the descriptor's own
key plus one entry per element key — into the ordered element
sequence; with no element entries, or with only a raw/unset length, it
returns an empty sequence rather than failing.  For other key types it
decodes the single raw value (`null` decodes to the neutral value per
the tie-break policy embodied in `decodeKeyValue`). -/
def decodeKey (s : Schema) (v : RawInput) : Option DVal :=
  if jsToLower s.keyType == "array" then
    match v with
    | .entries l =>
      match l.find? (fun kv => kv.key == s.key) with
      | some lenKV =>
        match lenKV.value with
        | some lenB =>
          let len := match decodeKeyValue "uint256" "Number" (some lenB) with
            | some (.num n) => n
            | _ => 0
          some (.arr ((List.range len).filterMap (fun i =>
            match l.find? (fun kv => kv.key == encodeArrayKey s.key i) with
            | some kv => decodeKeyValue s.valueType s.valueContent kv.value
            | none => none)))
        | none => some (.arr [])
      | none => some (.arr [])
    | .raw _ => some (.arr [])
  else
    match v with
    | .raw b => (decodeKeyValue s.valueType s.valueContent b).map .scalar
    | .entries _ => none

/-- Modelled from the spec (§4.3): `decodeData` of `lib/utils` (not
part of the repository snapshot) resolves every supplied key against
the schemas and decodes its value, returning a mapping keyed by the
descriptor's name. -/
def decodeData (data : List (String × RawInput)) (schemas : List Schema) :
    Except Err (List (String × Option DVal)) :=
  data.mapM (fun p =>
    match getSchemaElement schemas p.1 with
    | .ok s => .ok (s.name, decodeKey s p.2)
    | .error e => .error e)

/-- Modelled from the spec (§4.3): `encodeData` of `lib/utils` (not
part of the repository snapshot) resolves every supplied name against
the schemas and encodes its value, returning hashed keys with encoded
values; a value-shape mismatch is an `EncodingError`. -/
def encodeData (schemas : List Schema) (data : List (String × SVal)) :
    Except Err (List KeyValuePair) :=
  data.mapM (fun p =>
    match getSchemaElement schemas p.1 with
    | .ok s =>
      match encodeKeyValue s.valueType s.valueContent p.2 with
      | some b => Except.ok ⟨s.key, some b⟩
      | none => Except.error Err.encodingError
    | .error e => .error e)

/-! ### The facade's data operations (`index.ts`) -/

/-- `ERC725.getArrayValues` (`index.ts` lines 416-463): requires the
exact key type string `"Array"`; reads the length entry out of the
caller-supplied snapshot (an absent or unset length yields an empty
result); computes the element keys missing from the snapshot and
requests them in one batched `getAllData` call; if that call throws,
the error is swallowed and the assembled result stays empty. -/
def getArrayValues (env : Env) (opts : ERC725Options) (schema : Schema)
    (data : List (String × Option Bytes)) : Except Err (List KeyValuePair) :=
  if schema.keyType != "Array" then .error .badArrayKeyType
  else
    match lookupStr data schema.key with
    | none => .ok []
    | some none => .ok []
    | some (some lenB) =>
      let arrayLength := match decodeKeyValue "uint256" "Number" (some lenB) with
        | some (.num n) => n
        | _ => 0
      let arrayElementKeys := (List.range arrayLength).filterMap (fun i =>
        let k := encodeArrayKey schema.key i
        if (lookupStr data k).isSome then none else some k)
      match env.providerGetAllData (addressOf opts) arrayElementKeys with
      | .ok arrayElements => .ok arrayElements
      | .error _ => .ok []

/-- `ERC725.getDataSingle` (`index.ts` lines 465-489): resolve the
descriptor, read its raw value, and decode it; a descriptor whose key
type lower-cases to `"array"` goes through `getArrayValues`, returning
an empty sequence when no element values come back. -/
def getDataSingle (env : Env) (opts : ERC725Options) (dataName : String) :
    Except Err (Option DVal) :=
  match getSchemaElement opts.schemas dataName with
  | .error e => .error e
  | .ok keySchema =>
    let rawData := env.providerGetData (addressOf opts) keySchema.key
    if jsToLower keySchema.keyType == "array" then
      match getArrayValues env opts keySchema [(keySchema.key, rawData)] with
      | .error e => .error e
      | .ok arrayValues =>
        if arrayValues.length > 0 then
          .ok (decodeKey keySchema (.entries (arrayValues ++ [⟨keySchema.key, rawData⟩])))
        else .ok (some (.arr []))
    else .ok (decodeKey keySchema (.raw rawData))

/-- The per-name key resolution of `getDataMultiple` (`index.ts` lines
492-495): `keyNames.map(getSchemaElement)` — the first name with no
matching schema throws, aborting the whole call. -/
def resolveKeyHashes (schemas : List Schema) : List String → Except Err (List String)
  | [] => .ok []
  | n :: t =>
    match getSchemaElement schemas n with
    | .error e => .error e
    | .ok s =>
      match resolveKeyHashes schemas t with
      | .error e => .error e
      | .ok ks => .ok (s.key :: ks)

/-- The per-`Array`-schema loop of `getDataMultiple` (`index.ts` lines
512-527): for every schema whose key type lower-cases to `"array"`,
run `getArrayValues` against a snapshot holding only that schema's raw
length entry, and splice the assembled entries (plus the raw length
entry) into the accumulated object when any came back. -/
def fillArraySchemas (env : Env) (opts : ERC725Options) :
    List Schema → List (String × RawInput) → Except Err (List (String × RawInput))
  | [], td => .ok td
  | ks :: rest, td =>
    let lenVal : Option Bytes :=
      match lookupStr td ks.key with
      | some (.raw b) => b
      | _ => none
    match getArrayValues env opts ks [(ks.key, lenVal)] with
    | .error e => .error e
    | .ok arrayValues =>
      fillArraySchemas env opts rest
        (if arrayValues.length > 0 then
          objInsert td ks.key (.entries (arrayValues ++ [⟨ks.key, lenVal⟩]))
        else td)

/-- `ERC725.getDataMultiple` (`index.ts` lines 491-530): resolve every
requested name to its key (a resolution failure propagates), read all
keys in one batched provider call, then fill in every `Array` schema
via `fillArraySchemas`, and decode the accumulated object. -/
def getDataMultiple (env : Env) (opts : ERC725Options) (keyNames : List String) :
    Except Err (List (String × Option DVal)) :=
  match resolveKeyHashes opts.schemas keyNames with
  | .error e => .error e
  | .ok keyHashes =>
    match env.providerGetAllData (addressOf opts) keyHashes with
    | .error _ => .error .providerFailed
    | .ok allRawData =>
      let tmpData : List (String × RawInput) :=
        allRawData.foldl (fun acc kv => objInsert acc kv.key (.raw kv.value)) []
      match fillArraySchemas env opts
          (opts.schemas.filter (fun e => jsToLower e.keyType == "array")) tmpData with
      | .error e => .error e
      | .ok tmpData2 => decodeData tmpData2 opts.schemas

/-- `ERC725.getData` with a list of names, or with no argument
(`index.ts` lines 175-188): checks address and provider, defaults the
key list to every schema name, and delegates to `getDataMultiple`. -/
def getDataList (env : Env) (opts : ERC725Options) (keyOrKeys? : Option (List String)) :
    Except Err (List (String × Option DVal)) :=
  match getAddressAndProvider opts with
  | .error e => .error e
  | .ok _ =>
    getDataMultiple env opts
      (match keyOrKeys? with
       | none => opts.schemas.map (·.name)
       | some l => l)

/-- `ERC725.getData` with a single name (`index.ts` lines 175-188):
checks address and provider and delegates to `getDataSingle`. -/
def getDataOne (env : Env) (opts : ERC725Options) (dataName : String) :
    Except Err (Option DVal) :=
  match getAddressAndProvider opts with
  | .error e => .error e
  | .ok _ => getDataSingle env opts dataName

/-! ### External-reference resolution (`fetchData` pipeline) -/

/-- JS property access `dataEntry.url` on a decoded value
(an absent property reads as the empty string). -/
def entryUrl : DVal → String
  | .scalar (.urlData _ _ u) => u
  | _ => ""

/-- JS property access `dataEntry.hash` on a decoded value. -/
def entryHash : DVal → Bytes
  | .scalar (.urlData _ h _) => h
  | _ => []

/-- JS property access `dataEntry.hashFunction` on a decoded value. -/
def entryHashFunction : DVal → String
  | .scalar (.urlData hf _ _) => hf
  | _ => ""

/-- `ERC725.patchIPFSUrlsIfApplicable` (`index.ts` lines 536-551): when
the received value has a non-empty `url` whose `indexOf('ipfs://')`
is not `-1`, the first occurrence of `ipfs://` is replaced by the
configured gateway; otherwise the value is returned unchanged. -/
def patchIPFSUrlsIfApplicable (gateway : String) (e : DVal) : DVal :=
  match e with
  | .scalar (.urlData hf h url) =>
    if url != "" && (strIndexOf url "ipfs://").isSome then
      .scalar (.urlData hf h (replaceFirstStr url "ipfs://" gateway))
    else .scalar (.urlData hf h url)
  | other => other

/-- Modelled from the spec (§4.5, §8 authentication law):
`isDataAuthentic` of `lib/utils` is not part of the repository
snapshot.  It digests the fetched content under the stored hash
function and compares against the stored hash; an unsupported hash
function is an authentication failure, never a fault. -/
def isDataAuthentic (digests : String → Option (Bytes → Bytes))
    (content hash : Bytes) (hf : String) : Bool :=
  match digests hf with
  | some d => d content == hash
  | none => false

/-- The body of the `getDataFromExternalSources` accumulator callback
for one entry (`index.ts` lines 274-308): a `null` chain value maps to
`null`; otherwise the (IPFS-patched) URL is fetched — a transport
failure is rethrown — and the content is kept only when authentic,
`null` otherwise. -/
def resolveExternalEntry (env : Env) (gateway : String) (dataEntry : Option DVal) :
    Except Err (Option DVal) :=
  match dataEntry with
  | none => .ok none
  | some de =>
    match env.fetch (entryUrl (patchIPFSUrlsIfApplicable gateway de)) with
    | .error _ => .error .fetchFailed
    | .ok receivedData =>
      .ok (if isDataAuthentic env.digests receivedData (entryHash de) (entryHashFunction de)
           then some (.scalar (.bytes receivedData)) else none)

/-- The `.filter` stage of `getDataFromExternalSources` (`index.ts`
lines 267-273): keep the chain entries whose schema's `valueContent`
lower-cases to `jsonurl`/`asseturl`; an entry whose key resolves to no
schema makes `getSchemaElement` throw, failing the whole call. -/
def filterExternalContents (schemas : List Schema) :
    List (String × Option DVal) → Except Err (List (String × Option DVal))
  | [] => .ok []
  | p :: t =>
    match getSchemaElement schemas p.1 with
    | .error e => .error e
    | .ok keySchema =>
      match filterExternalContents schemas t with
      | .error e => .error e
      | .ok acc =>
        .ok (if ["jsonurl", "asseturl"].contains (jsToLower keySchema.valueContent)
             then p :: acc else acc)

/-- One filtered entry's fetch attempt fails (used to decide whether
the accumulator Promise chain of `index.ts` lines 274-309 rejects). -/
def entryFetchFails (env : Env) (gateway : String) (p : String × Option DVal) : Bool :=
  match p.2 with
  | some de =>
    match env.fetch (entryUrl (patchIPFSUrlsIfApplicable gateway de)) with
    | .error _ => true
    | .ok _ => false
  | none => false

/-- `ERC725.getDataFromExternalSources` (`index.ts` lines 264-310).
The source filters the chain data down to the entries whose schema's
`valueContent` lower-cases to `jsonurl`/`asseturl` (an entry whose key
has no schema makes `getSchemaElement` throw), then runs
`Array.prototype.reduce` with an `async` callback over the initial
accumulator `{}` — **without ever awaiting the accumulator**.  The
first callback therefore receives the plain object and its assignment
lands in the eventual result; every later callback receives the
pending Promise of its predecessor, so its assignments mutate a
Promise object and are discarded when the chain of returned
accumulators resolves back to the plain object.  A callback that
throws (the rethrown fetch transport failure) rejects its Promise, and
every later callback returns that rejected accumulator, so the
rejection propagates to the caller.  Net observable behaviour, encoded
here: the call fails if any filtered entry's fetch fails, and
otherwise yields only the first filtered entry's resolution. -/
def getDataFromExternalSources (env : Env) (schemas : List Schema) (gateway : String)
    (dataFromChain : List (String × Option DVal)) :
    Except Err (List (String × Option DVal)) :=
  match filterExternalContents schemas dataFromChain with
  | .error e => .error e
  | .ok filtered =>
    if filtered.any (entryFetchFails env gateway) then .error .fetchFailed
    else
      .ok (match filtered with
        | [] => []
        | p :: _ =>
          match resolveExternalEntry env gateway p.2 with
          | .ok v => [(p.1, v)]
          | .error _ => [])

/-- JS object spread `{...a, ...b}`: keys of `a` in order (values
overridden by `b` where present), then the keys only `b` has. -/
def mergeObjects (a b : List (String × Option DVal)) : List (String × Option DVal) :=
  a.map (fun p => (p.1, match lookupStr b p.1 with | some w => w | none => p.2))
    ++ b.filter (fun p => (lookupStr a p.1).isNone)

/-- `ERC725.fetchData` with a list of names (`index.ts` lines 207-234):
reads the chain data, resolves external references, and overlays the
external results onto the chain results by object spread. -/
def fetchDataList (env : Env) (opts : ERC725Options) (keys? : Option (List String)) :
    Except Err (List (String × Option DVal)) :=
  match getDataList env opts keys? with
  | .error e => .error e
  | .ok dataFromChain =>
    match getDataFromExternalSources env opts.schemas opts.ipfsGateway dataFromChain with
    | .error e => .error e
    | .ok dataFromExternalSources =>
      .ok (mergeObjects dataFromChain dataFromExternalSources)

/-- `ERC725.fetchData` with a single name (`index.ts` lines 207-234):
wraps the name in a one-element list, runs the list pipeline, and
returns that name's entry of the result, or `null` when absent. -/
def fetchDataOne (env : Env) (opts : ERC725Options) (keyName : String) :
    Except Err (Option DVal) :=
  match fetchDataList env opts (some [keyName]) with
  | .error e => .error e
  | .ok results =>
    .ok (match lookupStr results keyName with
      | some v => v
      | none => none)

/-! ### Concrete instances used by the closed theorems -/

/-- A toy canonical key derivation used by concrete instances in this
development: prepend `0x` to the name. -/
def eknToy (n : String) : String := String.mk ('0' :: 'x' :: n.data)

/-- A descriptor whose key matches `eknToy` of its name. -/
def schemaGoodC4 : Schema := ⟨"Good", eknToy "Good", "Singleton", "string", "String"⟩

/-- A descriptor whose key does not match `eknToy` of its name. -/
def schemaBadC4 : Schema := ⟨"Bad", "0xWrong", "Singleton", "string", "String"⟩

/-- A 32-byte test digest value. -/
def hashC2 : Bytes := List.replicate 32 7

/-- Test environment whose digest table supports only
`keccak256(utf8)` (constantly `hashC2`) and whose fetch returns
`[1, 2]` for every URL. -/
def envC2 : Env :=
  { digests := fun hfn => if hfn = "keccak256(utf8)" then some (fun _ => hashC2) else none
    fetch := fun _ => .ok [1, 2]
    providerGetData := fun _ _ => none
    providerGetAllData := fun _ _ => .ok [] }

/-- Test environment whose fetch always fails with a transport error. -/
def envC7 : Env :=
  { digests := fun _ => none
    fetch := fun _ => .error ()
    providerGetData := fun _ _ => none
    providerGetAllData := fun _ _ => .ok [] }

/-- A `JSONURL` descriptor used by concrete external-resolution
instances. -/
def schemaJsonC7 : Schema := ⟨"Ext", "0xExt", "Singleton", "bytes", "JSONURL"⟩

/-- A syntactically valid 42-character target address for concrete
instances. -/
def addr42 : String := "0xaaaaaaaaaaaaaaaaaaaaaaaaaaaaaaaaaaaaaaaa"

/-- An inert environment: no supported digests, failing fetch, empty
store. -/
def envNull : Env :=
  { digests := fun _ => none
    fetch := fun _ => .error ()
    providerGetData := fun _ _ => none
    providerGetAllData := fun _ _ => .ok [] }

/-- An `Array` descriptor used by concrete instances. -/
def schemaArrC9 : Schema := ⟨"Arr[]", "0xAAAA", "Array", "string", "String"⟩

/-- Options over just the `Array` descriptor. -/
def optsC9 : ERC725Options := ⟨[schemaArrC9], some addr42, defaultIpfsGateway⟩

/-- A descriptor with the lower-case key type `"array"`. -/
def schemaArrLowerC10 : Schema := ⟨"arr[]", "0xBBBB", "array", "string", "String"⟩

/-- Options over just the lower-case-`array` descriptor. -/
def optsC10 : ERC725Options := ⟨[schemaArrLowerC10], some addr42, defaultIpfsGateway⟩

/-- A known singleton descriptor. -/
def schemaKnownC3 : Schema := ⟨"Known", "0xCCCC", "Singleton", "string", "String"⟩

/-- Options over just the known descriptor. -/
def optsC3 : ERC725Options := ⟨[schemaKnownC3], some addr42, defaultIpfsGateway⟩

/-- Environment for C6: the store has the array length entry (value
`2`) and rejects any non-empty batched read. -/
def envC6 : Env :=
  { digests := fun _ => none
    fetch := fun _ => .error ()
    providerGetData := fun _ k => if k = "0xAAAA" then some [2] else none
    providerGetAllData := fun _ ks => if ks.isEmpty then .ok [] else .error () }

/-- Stored hash of the first external entry's content. -/
def hashOne : Bytes := List.replicate 32 1

/-- Stored hash of the second external entry's content. -/
def hashTwo : Bytes := List.replicate 32 2

/-- Raw `JSONURL` value: selector `keccak256(utf8)`, `hashOne`,
URL `"a"`. -/
def rawJson1 : Bytes := [111, 53, 124, 106] ++ hashOne ++ [97]

/-- Raw `JSONURL` value: selector `keccak256(utf8)`, `hashTwo`,
URL `"b"`. -/
def rawJson2 : Bytes := [111, 53, 124, 106] ++ hashTwo ++ [98]

/-- First `JSONURL` descriptor. -/
def schemaJ1 : Schema := ⟨"J1", "0xE001", "Singleton", "bytes", "JSONURL"⟩

/-- Second `JSONURL` descriptor. -/
def schemaJ2 : Schema := ⟨"J2", "0xE002", "Singleton", "bytes", "JSONURL"⟩

/-- Options over the two `JSONURL` descriptors. -/
def optsC5 : ERC725Options := ⟨[schemaJ1, schemaJ2], some addr42, defaultIpfsGateway⟩

/-- Environment for C5: the store holds both raw references, both
fetches succeed, and both contents authenticate against their stored
hashes under `keccak256(utf8)`. -/
def envC5 : Env :=
  { digests := fun hfn =>
      if hfn = "keccak256(utf8)" then
        some (fun c => if c = [10] then hashOne else if c = [20] then hashTwo else [])
      else none
    fetch := fun u => if u = "a" then .ok [10] else if u = "b" then .ok [20] else .error ()
    providerGetData := fun _ _ => none
    providerGetAllData := fun _ ks =>
      if ks = ["0xE001", "0xE002"] then
        .ok [⟨"0xE001", some rawJson1⟩, ⟨"0xE002", some rawJson2⟩]
      else .ok [] }

/-! ### Codec round-trip lemmas -/

/-- The fuel of `utf8DecodeF` is irrelevant once it dominates the
input length. -/
theorem utf8DecodeF_fuel_eq : ∀ (f g : Nat) (l : Bytes), l.length ≤ f → l.length ≤ g →
    utf8DecodeF f l = utf8DecodeF g l := by
  intro f
  induction f with
  | zero =>
    intro g l hf hg
    cases l with
    | nil => cases g <;> rfl
    | cons b t => simp at hf
  | succ f ih =>
    intro g l hf hg
    cases l with
    | nil => cases g <;> rfl
    | cons b0 rest =>
      cases g with
      | zero => simp at hg
      | succ g2 =>
        have hr : rest.length ≤ f := by
          rw [List.length_cons] at hf
          omega
        have hrg : rest.length ≤ g2 := by
          rw [List.length_cons] at hg
          omega
        have hd : ∀ k, (rest.drop k).length ≤ f := fun k => by
          rw [List.length_drop]
          omega
        have hdg : ∀ k, (rest.drop k).length ≤ g2 := fun k => by
          rw [List.length_drop]
          omega
        rw [utf8DecodeF]
        rw [utf8DecodeF]
        by_cases h1 : b0 < 0x80
        · rw [if_pos h1, if_pos h1, ih g2 rest hr hrg]
        · rw [if_neg h1, if_neg h1]
          by_cases h2 : b0 < 0xC0
          · rw [if_pos h2, if_pos h2]
          · rw [if_neg h2, if_neg h2]
            by_cases h3 : b0 < 0xE0
            · rw [if_pos h3, if_pos h3, ih g2 (rest.drop 1) (hd 1) (hdg 1)]
            · rw [if_neg h3, if_neg h3]
              by_cases h4 : b0 < 0xF0
              · rw [if_pos h4, if_pos h4, ih g2 (rest.drop 2) (hd 2) (hdg 2)]
              · rw [if_neg h4, if_neg h4, ih g2 (rest.drop 3) (hd 3) (hdg 3)]

/-- Decoding picks up one UTF-8-encoded character and continues. -/
theorem utf8DecodeList_encodeChar (c : Char) (rest : Bytes) :
    utf8DecodeList (utf8EncodeChar c ++ rest) =
      (utf8DecodeList rest).map (fun cs => c :: cs) := by
  have hv : Nat.isValidChar c.toNat := c.valid
  have hv2 : c.toNat < 0xD800 ∨ (0xE000 ≤ c.toNat ∧ c.toNat < 0x110000) := hv
  unfold utf8DecodeList
  rcases Nat.lt_or_ge c.toNat 0x80 with h1 | h1
  · have e0 : utf8EncodeChar c = [c.toNat] := by
      simp only [utf8EncodeChar]
      rw [if_pos h1]
    rw [e0, show ([c.toNat] ++ rest) = c.toNat :: rest from rfl, List.length_cons]
    rw [utf8DecodeF, if_pos h1, Char.ofNat_toNat]
  · rcases Nat.lt_or_ge c.toNat 0x800 with h2 | h2
    · have e0 : utf8EncodeChar c = [0xC0 + c.toNat / 64, 0x80 + c.toNat % 64] := by
        simp only [utf8EncodeChar]
        rw [if_neg (by omega), if_pos h2]
      rw [e0, show ([0xC0 + c.toNat / 64, 0x80 + c.toNat % 64] ++ rest) =
            (0xC0 + c.toNat / 64) :: (0x80 + c.toNat % 64) :: rest from rfl]
      rw [List.length_cons, List.length_cons]
      rw [utf8DecodeF]
      rw [if_neg (by omega), if_neg (by omega), if_pos (by omega)]
      simp only [List.headD_cons, List.drop_succ_cons, List.drop_zero, utf8Decode2]
      rw [utf8DecodeF_fuel_eq (rest.length + 1) rest.length rest (by omega) (le_refl _)]
      rw [if_pos (by omega)]
      rw [show (0xC0 + c.toNat / 64 - 0xC0) * 64 + (0x80 + c.toNat % 64 - 0x80) = c.toNat by omega]
      rw [Char.ofNat_toNat]
    · rcases Nat.lt_or_ge c.toNat 0x10000 with h3 | h3
      · have e0 : utf8EncodeChar c =
            [0xE0 + c.toNat / 4096, 0x80 + (c.toNat / 64) % 64, 0x80 + c.toNat % 64] := by
          simp only [utf8EncodeChar]
          rw [if_neg (by omega), if_neg (by omega), if_pos h3]
        rw [e0, show ([0xE0 + c.toNat / 4096, 0x80 + (c.toNat / 64) % 64, 0x80 + c.toNat % 64] ++ rest) =
              (0xE0 + c.toNat / 4096) :: (0x80 + (c.toNat / 64) % 64) :: (0x80 + c.toNat % 64) :: rest from rfl]
        rw [List.length_cons, List.length_cons, List.length_cons]
        rw [utf8DecodeF]
        rw [if_neg (by omega), if_neg (by omega), if_neg (by omega), if_pos (by omega)]
        simp only [List.headD_cons, List.drop_succ_cons, List.drop_zero, utf8Decode3]
        rw [utf8DecodeF_fuel_eq (rest.length + 1 + 1) rest.length rest (by omega) (le_refl _)]
        rw [if_pos (by omega)]
        rw [show (0xE0 + c.toNat / 4096 - 0xE0) * 4096 + (0x80 + (c.toNat / 64) % 64 - 0x80) * 64 +
              (0x80 + c.toNat % 64 - 0x80) = c.toNat by omega]
        rw [Char.ofNat_toNat]
      · have h4 : c.toNat < 0x110000 := by omega
        have e0 : utf8EncodeChar c =
            [0xF0 + c.toNat / 0x40000, 0x80 + (c.toNat / 4096) % 64,
             0x80 + (c.toNat / 64) % 64, 0x80 + c.toNat % 64] := by
          simp only [utf8EncodeChar]
          rw [if_neg (by omega), if_neg (by omega), if_neg (by omega)]
        rw [e0, show ([0xF0 + c.toNat / 0x40000, 0x80 + (c.toNat / 4096) % 64,
              0x80 + (c.toNat / 64) % 64, 0x80 + c.toNat % 64] ++ rest) =
              (0xF0 + c.toNat / 0x40000) :: (0x80 + (c.toNat / 4096) % 64) ::
              (0x80 + (c.toNat / 64) % 64) :: (0x80 + c.toNat % 64) :: rest from rfl]
        rw [List.length_cons, List.length_cons, List.length_cons, List.length_cons]
        rw [utf8DecodeF]
        rw [if_neg (by omega), if_neg (by omega), if_neg (by omega), if_neg (by omega)]
        simp only [List.headD_cons, List.drop_succ_cons, List.drop_zero, utf8Decode4]
        rw [utf8DecodeF_fuel_eq (rest.length + 1 + 1 + 1) rest.length rest (by omega) (le_refl _)]
        rw [if_pos (by omega)]
        rw [show (0xF0 + c.toNat / 0x40000 - 0xF0) * 0x40000 + (0x80 + (c.toNat / 4096) % 64 - 0x80) * 4096 +
              (0x80 + (c.toNat / 64) % 64 - 0x80) * 64 + (0x80 + c.toNat % 64 - 0x80) = c.toNat by omega]
        rw [Char.ofNat_toNat]

/-- UTF-8 decoding inverts UTF-8 encoding on character lists. -/
theorem utf8DecodeList_encode (cs : List Char) :
    utf8DecodeList (cs.flatMap utf8EncodeChar) = some cs := by
  induction cs with
  | nil => rfl
  | cons c t ih =>
    rw [List.flatMap_cons, utf8DecodeList_encodeChar, ih]
    rfl

/-- UTF-8 decoding inverts UTF-8 encoding on strings. -/
theorem utf8Decode_utf8Encode (s : String) : utf8Decode (utf8Encode s) = some s := by
  unfold utf8Decode utf8Encode
  rw [utf8DecodeList_encode]
  rfl

/-- Folding the big-endian digits accumulates the low `8k` bits. -/
theorem beBytesToNat_foldl (k : Nat) : ∀ (n a : Nat),
    (natToBEBytes k n).foldl (fun x b => x * 256 + b) a = a * 256 ^ k + n % 256 ^ k := by
  induction k with
  | zero => intro n a; simp [natToBEBytes, Nat.mod_one]
  | succ k ih =>
    intro n a
    rw [natToBEBytes, List.foldl_append]
    simp only [List.foldl_cons, List.foldl_nil]
    rw [ih]
    have hm : n % (256 * 256 ^ k) = n % 256 + 256 * (n / 256 % 256 ^ k) := Nat.mod_mul
    have hp : (256 : Nat) ^ (k + 1) = 256 * 256 ^ k := by ring
    rw [hp, hm]
    ring

/-- Decoding the 32-byte big-endian layout inverts encoding for values
below `2 ^ 256`. -/
theorem beBytesToNat_natToBEBytes (n : Nat) (h : n < 2 ^ 256) :
    beBytesToNat (natToBEBytes 32 n) = n := by
  unfold beBytesToNat
  rw [beBytesToNat_foldl 32 n 0]
  have he : (256 : Nat) ^ 32 = 2 ^ 256 := by norm_num
  rw [Nat.zero_mul, Nat.zero_add, he, Nat.mod_eq_of_lt h]

/-- Hex-digit characters decode back to their nibble. -/
theorem hexCharToNat_natToHexChar (n : Nat) (h : n < 16) :
    hexCharToNat (natToHexChar n) = some n := by
  interval_cases n <;> decide

/-- Parsing hex pairs inverts byte-to-hex printing. -/
theorem parseHexPairs_bytesToHexChars (b : Bytes) (h : ∀ x ∈ b, x < 256) :
    parseHexPairs (bytesToHexChars b) = some b := by
  induction b with
  | nil => rfl
  | cons x t ih =>
    have hx : x < 256 := h x (by simp)
    have ht : ∀ y ∈ t, y < 256 := fun y hy => h y (by simp [hy])
    show parseHexPairs (natToHexChar (x / 16) :: natToHexChar (x % 16) :: bytesToHexChars t) = _
    rw [parseHexPairs, hexCharToNat_natToHexChar _ (by omega),
      hexCharToNat_natToHexChar _ (by omega), ih ht]
    show some ((x / 16 * 16 + x % 16) :: t) = some (x :: t)
    rw [show x / 16 * 16 + x % 16 = x by omega]

/-- Parsing a `0x` hex string inverts byte-to-hex printing. -/
theorem parseHex0x_bytesToHex0x (b : Bytes) (h : ∀ x ∈ b, x < 256) :
    parseHex0x (bytesToHex0x b) = some b := by
  show parseHexPairs (bytesToHexChars b) = some b
  exact parseHexPairs_bytesToHexChars b h

/-- A supported hash-function selector round-trips through its name,
and is 4 bytes wide. -/
theorem selectorName_selectorOf (hf : String) (sel : Bytes) (h : selectorOf hf = some sel) :
    selectorName sel = some hf ∧ sel.length = 4 := by
  unfold selectorOf at h
  split at h
  · cases h; exact ⟨rfl, rfl⟩
  · cases h; exact ⟨rfl, rfl⟩
  · cases h

/-- Codec dispatch of the `("string", "String")` combination. -/
theorem comboOf_str : comboOf "string" "String" = some .cstr := by decide

/-- Codec dispatch of the `("uint256", "Number")` combination. -/
theorem comboOf_num : comboOf "uint256" "Number" = some .cnum := by decide

/-- Codec dispatch of the `("bool", "Boolean")` combination. -/
theorem comboOf_bool : comboOf "bool" "Boolean" = some .cbool := by decide

/-- Codec dispatch of the `("address", "Address")` combination. -/
theorem comboOf_addr : comboOf "address" "Address" = some .caddr := by decide

/-- Codec dispatch of the `("bytes", "Bytes")` combination. -/
theorem comboOf_bytes : comboOf "bytes" "Bytes" = some .cbytes := by decide

/-- Codec dispatch of the `("bytes", "JSONURL")` combination. -/
theorem comboOf_jsonurl : comboOf "bytes" "JSONURL" = some .curl := by decide

/-- Codec dispatch of the `("bytes", "AssetURL")` combination. -/
theorem comboOf_asseturl : comboOf "bytes" "AssetURL" = some .curl := by decide

/-- Round trip of the value codec at the level of codec tags. -/
theorem decodeKV_encodeKV (co : Combo) (v : SVal) (hv : shapeOkC co v) :
    (encodeKV co v).bind (fun e => decodeKV co (some e)) = some v := by
  cases co <;> cases v <;> simp only [shapeOkC] at hv
  case cstr.str s =>
    simp only [encodeKV, decodeKV, Option.some_bind]
    rw [utf8Decode_utf8Encode]
    rfl
  case cnum.num n =>
    simp only [encodeKV, if_pos hv, decodeKV, Option.some_bind]
    rw [beBytesToNat_natToBEBytes n hv]
  case cbool.boolean b =>
    cases b <;> rfl
  case caddr.addr s =>
    obtain ⟨b, hlen, hb, rfl⟩ := hv
    simp only [encodeKV, parseHex0x_bytesToHex0x b hb, Option.some_bind, if_pos hlen, decodeKV]
  case cbytes.bytes b =>
    simp only [encodeKV, if_pos hv, decodeKV, Option.some_bind]
  case curl.urlData hf h url =>
    obtain ⟨hsel, hlen, hb⟩ := hv
    obtain ⟨sel, hse⟩ := Option.isSome_iff_exists.mp hsel
    obtain ⟨hname, hsl⟩ := selectorName_selectorOf hf sel hse
    simp only [encodeKV, hse, Option.some_bind, if_pos (And.intro hlen hb), decodeKV,
      decodeURLData]
    have hlb : 36 ≤ (sel ++ h ++ utf8Encode url).length := by
      simp only [List.length_append, hsl, hlen]
      omega
    rw [if_pos hlb]
    have hd36 : (sel ++ h ++ utf8Encode url).drop 36 = utf8Encode url := by
      exact List.drop_left' (by simp only [List.length_append, hsl, hlen])
    have ht4 : (sel ++ h ++ utf8Encode url).take 4 = sel := by
      rw [List.append_assoc]
      exact List.take_left' hsl
    have hd4 : (sel ++ h ++ utf8Encode url).drop 4 = h ++ utf8Encode url := by
      rw [List.append_assoc]
      exact List.drop_left' hsl
    rw [hd36, utf8Decode_utf8Encode, ht4, hname, hd4, List.take_left' hlen]

/-- Round trip of the value codec for every supported
`valueType`/`valueContent` combination. -/
theorem decodeKeyValue_encodeKeyValue (vt vc : String)
    (hsup : (vt, vc) ∈ supportedCombos) (v : SVal) (hv : shapeOk vt vc v) :
    (encodeKeyValue vt vc v).bind (fun e => decodeKeyValue vt vc (some e)) = some v := by
  unfold shapeOk at hv
  unfold encodeKeyValue decodeKeyValue
  cases hco : comboOf vt vc with
  | none =>
    rw [hco] at hv
    exact absurd hv id
  | some co =>
    rw [hco] at hv
    have hv' : shapeOkC co v := hv
    show (encodeKV co v).bind (fun e => decodeKV co (some e)) = some v
    exact decodeKV_encodeKV co v hv'

/-- Resolution in a one-descriptor registry by name. -/
theorem getSchemaElement_singleton_name (s : Schema) :
    getSchemaElement [s] s.name = .ok s := by
  unfold getSchemaElement
  rw [List.find?_cons_of_pos _ (by simp)]

/-- Resolution in a one-descriptor registry by key. -/
theorem getSchemaElement_singleton_key (s : Schema) :
    getSchemaElement [s] s.key = .ok s := by
  unfold getSchemaElement
  rw [List.find?_cons_of_pos _ (by simp)]

/-- C1: for every schema descriptor with a supported
`valueType`/`valueContent` combination and every value satisfying that
type's shape constraints, decoding the result of encoding the value
under that descriptor yields the value back — both at the level of the
value codec and through `decodeData` applied to the output of
`encodeData`. -/
theorem C1_round_trip (s : Schema) (v : SVal)
    (hk : s.keyType = "Singleton")
    (hsup : (s.valueType, s.valueContent) ∈ supportedCombos)
    (hv : shapeOk s.valueType s.valueContent v) :
    (encodeKeyValue s.valueType s.valueContent v).bind
      (fun e => decodeKeyValue s.valueType s.valueContent (some e)) = some v ∧
    ∃ kvs : List KeyValuePair,
      encodeData [s] [(s.name, v)] = .ok kvs ∧
      decodeData (kvs.map (fun kv => (kv.key, .raw kv.value))) [s] =
        .ok [(s.name, some (.scalar v))] := by
  have hrt := decodeKeyValue_encodeKeyValue _ _ hsup v hv
  refine ⟨hrt, ?_⟩
  obtain ⟨e, he⟩ : ∃ e, encodeKeyValue s.valueType s.valueContent v = some e := by
    cases h : encodeKeyValue s.valueType s.valueContent v with
    | none => rw [h] at hrt; exact absurd hrt (by simp)
    | some e => exact ⟨e, rfl⟩
  have hd : decodeKeyValue s.valueType s.valueContent (some e) = some v := by
    rw [he] at hrt
    simpa using hrt
  refine ⟨[⟨s.key, some e⟩], ?_, ?_⟩
  · simp only [encodeData, List.mapM_cons, List.mapM_nil, getSchemaElement_singleton_name, he]
    rfl
  · have hdk : decodeKey s (.raw (some e)) = some (DVal.scalar v) := by
      unfold decodeKey
      rw [hk]
      rw [if_neg (by decide)]
      show (decodeKeyValue s.valueType s.valueContent (some e)).map DVal.scalar =
        some (DVal.scalar v)
      rw [hd]
      rfl
    simp only [List.map_cons, List.map_nil]
    simp only [decodeData, List.mapM_cons, List.mapM_nil, getSchemaElement_singleton_key, hdk]
    rfl

/-- Witness for C1 at Scenario A: a `Singleton` string descriptor and
the value `"hello"`. -/
theorem C1_round_trip_witness :
    (encodeKeyValue "string" "String" (.str "hello")).bind
      (fun e => decodeKeyValue "string" "String" (some e)) = some (.str "hello") ∧
    ∃ kvs : List KeyValuePair,
      encodeData [⟨"MyValue", "0xbeef", "Singleton", "string", "String"⟩]
        [("MyValue", .str "hello")] = .ok kvs ∧
      decodeData (kvs.map (fun kv => (kv.key, .raw kv.value)))
        [⟨"MyValue", "0xbeef", "Singleton", "string", "String"⟩] =
        .ok [("MyValue", some (.scalar (.str "hello")))] :=
  C1_round_trip ⟨"MyValue", "0xbeef", "Singleton", "string", "String"⟩ (.str "hello")
    rfl (by decide) trivial

/-! ### C4: registration-time schema validation -/

/-- C4: construction-time validation accepts exactly the descriptors
whose supplied key equals the canonical key derived from their name,
preserves the relative order of the accepted descriptors (the accepted
list is a sublist of the input), and a rejected descriptor is never
consulted later: the instance's schema list is the validated list, and
any descriptor a resolution over it returns passes the key check. -/
theorem C4_schema_validation (ekn : String → String) (schemas : List Schema)
    (address : Option String) (cfg : Option String) :
    (mkERC725 ekn schemas address cfg).schemas = validateSchemas ekn schemas ∧
    (validateSchemas ekn schemas).Sublist schemas ∧
    (∀ s : Schema, s ∈ validateSchemas ekn schemas ↔ s ∈ schemas ∧ s.key = ekn s.name) ∧
    (∀ q s, getSchemaElement (validateSchemas ekn schemas) q = .ok s →
      s ∈ schemas ∧ s.key = ekn s.name) := by
  refine ⟨rfl, List.filter_sublist _, ?_, ?_⟩
  · intro s
    unfold validateSchemas
    rw [List.mem_filter]
    simp [beq_iff_eq]
  · intro q s h
    unfold getSchemaElement at h
    cases hf : List.find? (fun s => s.name == q || s.key == q) (validateSchemas ekn schemas) with
    | none => rw [hf] at h; cases h
    | some s2 =>
      rw [hf] at h
      have h2 : (Except.ok s2 : Except Err Schema) = .ok s := h
      injection h2 with h3
      subst h3
      have hm := List.mem_of_find?_eq_some hf
      unfold validateSchemas at hm
      rw [List.mem_filter] at hm
      exact ⟨hm.1, by simpa using hm.2⟩

/-- Witness for C4: a two-descriptor registration with one valid and
one stale descriptor. -/
theorem C4_schema_validation_witness :
    (mkERC725 eknToy [schemaGoodC4, schemaBadC4] none none).schemas =
      validateSchemas eknToy [schemaGoodC4, schemaBadC4] ∧
    (validateSchemas eknToy [schemaGoodC4, schemaBadC4]).Sublist [schemaGoodC4, schemaBadC4] ∧
    (schemaBadC4 ∈ validateSchemas eknToy [schemaGoodC4, schemaBadC4] ↔
      schemaBadC4 ∈ [schemaGoodC4, schemaBadC4] ∧ schemaBadC4.key = eknToy schemaBadC4.name) ∧
    (schemaGoodC4 ∈ [schemaGoodC4, schemaBadC4] ∧ schemaGoodC4.key = eknToy schemaGoodC4.name) := by
  have h := C4_schema_validation eknToy [schemaGoodC4, schemaBadC4] none none
  exact ⟨h.1, h.2.1, h.2.2.1 schemaBadC4, h.2.2.2 "Good" schemaGoodC4 (by decide)⟩

/-! ### C2 and C7: external-content authentication -/

/-- C2: for an external-reference entry whose content fetch succeeds,
the resolution returns the fetched content if and only if the digest
of the fetched content under the stored hash function equals the
stored hash; otherwise it returns `null` without throwing; and an
unsupported hash function yields `null` regardless of the content. -/
theorem C2_authentication (env : Env) (gateway hf : String) (h : Bytes) (url : String)
    (c : Bytes)
    (hfetch : env.fetch (entryUrl (patchIPFSUrlsIfApplicable gateway
        (.scalar (.urlData hf h url)))) = .ok c) :
    (resolveExternalEntry env gateway (some (.scalar (.urlData hf h url))) =
        .ok (some (.scalar (.bytes c))) ↔ isDataAuthentic env.digests c h hf = true) ∧
    (resolveExternalEntry env gateway (some (.scalar (.urlData hf h url))) = .ok none ↔
        isDataAuthentic env.digests c h hf = false) ∧
    (env.digests hf = none →
      resolveExternalEntry env gateway (some (.scalar (.urlData hf h url))) = .ok none) := by
  have hred : resolveExternalEntry env gateway (some (.scalar (.urlData hf h url))) =
      .ok (if isDataAuthentic env.digests c h hf then some (.scalar (.bytes c)) else none) := by
    simp only [resolveExternalEntry]
    rw [hfetch]
    rfl
  refine ⟨?_, ?_, ?_⟩
  · rw [hred]
    cases ha : isDataAuthentic env.digests c h hf <;> simp
  · rw [hred]
    cases ha : isDataAuthentic env.digests c h hf <;> simp
  · intro hd
    rw [hred]
    have : isDataAuthentic env.digests c h hf = false := by
      unfold isDataAuthentic
      rw [hd]
    rw [this]
    rfl

/-- Witness for C2 at a concrete environment and entry. -/
theorem C2_authentication_witness :
    (resolveExternalEntry envC2 defaultIpfsGateway
        (some (.scalar (.urlData "keccak256(utf8)" hashC2 "u"))) =
        .ok (some (.scalar (.bytes [1, 2]))) ↔
      isDataAuthentic envC2.digests [1, 2] hashC2 "keccak256(utf8)" = true) ∧
    (resolveExternalEntry envC2 defaultIpfsGateway
        (some (.scalar (.urlData "keccak256(utf8)" hashC2 "u"))) = .ok none ↔
      isDataAuthentic envC2.digests [1, 2] hashC2 "keccak256(utf8)" = false) ∧
    (envC2.digests "keccak256(utf8)" = none →
      resolveExternalEntry envC2 defaultIpfsGateway
        (some (.scalar (.urlData "keccak256(utf8)" hashC2 "u"))) = .ok none) :=
  C2_authentication envC2 defaultIpfsGateway "keccak256(utf8)" hashC2 "u" [1, 2] (by decide)

/-- C7: during external-reference resolution, a transport failure of
the content fetch propagates to the caller as an error (never a `null`
entry), while a hash mismatch yields a `null` entry without throwing;
the two outcomes are distinguishable. -/
theorem C7_transport_vs_mismatch (env : Env) (schemas : List Schema) (gateway k : String)
    (s : Schema) (de : DVal)
    (hres : getSchemaElement schemas k = .ok s)
    (hvc : ["jsonurl", "asseturl"].contains (jsToLower s.valueContent) = true) :
    (env.fetch (entryUrl (patchIPFSUrlsIfApplicable gateway de)) = .error () →
      getDataFromExternalSources env schemas gateway [(k, some de)] = .error .fetchFailed) ∧
    (∀ c, env.fetch (entryUrl (patchIPFSUrlsIfApplicable gateway de)) = .ok c →
      isDataAuthentic env.digests c (entryHash de) (entryHashFunction de) = false →
      getDataFromExternalSources env schemas gateway [(k, some de)] = .ok [(k, none)]) ∧
    (Except.error Err.fetchFailed ≠
      (Except.ok [(k, (none : Option DVal))] : Except Err (List (String × Option DVal)))) := by
  have hfil : filterExternalContents schemas [(k, some de)] = .ok [(k, some de)] := by
    simp only [filterExternalContents, hres, hvc, if_true]
  refine ⟨?_, ?_, by simp⟩
  · intro hferr
    have hany : (List.any [(k, some de)] (entryFetchFails env gateway)) = true := by
      simp only [List.any_cons, List.any_nil, Bool.or_false, entryFetchFails]
      rw [hferr]
    simp only [getDataFromExternalSources, hfil, hany, if_true]
  · intro c hfc hauth
    have hany : (List.any [(k, some de)] (entryFetchFails env gateway)) = false := by
      simp only [List.any_cons, List.any_nil, Bool.or_false, entryFetchFails]
      rw [hfc]
    have hone : resolveExternalEntry env gateway (some de) = .ok none := by
      have hred : resolveExternalEntry env gateway (some de) =
          .ok (if isDataAuthentic env.digests c (entryHash de) (entryHashFunction de)
               then some (.scalar (.bytes c)) else none) := by
        simp only [resolveExternalEntry]
        rw [hfc]
      rw [hred, hauth]
      rfl
    simp only [getDataFromExternalSources, hfil, hany, Bool.false_eq_true, if_false, hone]

/-- Witness for C7 at a concrete environment and entry. -/
theorem C7_transport_vs_mismatch_witness :
    (envC7.fetch (entryUrl (patchIPFSUrlsIfApplicable defaultIpfsGateway
        (.scalar (.urlData "keccak256(utf8)" hashC2 "u")))) = .error () →
      getDataFromExternalSources envC7 [schemaJsonC7] defaultIpfsGateway
        [("Ext", some (.scalar (.urlData "keccak256(utf8)" hashC2 "u")))] =
        .error .fetchFailed) ∧
    (∀ c, envC7.fetch (entryUrl (patchIPFSUrlsIfApplicable defaultIpfsGateway
        (.scalar (.urlData "keccak256(utf8)" hashC2 "u")))) = .ok c →
      isDataAuthentic envC7.digests c
        (entryHash (.scalar (.urlData "keccak256(utf8)" hashC2 "u")))
        (entryHashFunction (.scalar (.urlData "keccak256(utf8)" hashC2 "u"))) = false →
      getDataFromExternalSources envC7 [schemaJsonC7] defaultIpfsGateway
        [("Ext", some (.scalar (.urlData "keccak256(utf8)" hashC2 "u")))] =
        .ok [("Ext", none)]) ∧
    (Except.error Err.fetchFailed ≠
      (Except.ok [("Ext", (none : Option DVal))] :
        Except Err (List (String × Option DVal)))) :=
  C7_transport_vs_mismatch envC7 [schemaJsonC7] defaultIpfsGateway "Ext" schemaJsonC7
    (.scalar (.urlData "keccak256(utf8)" hashC2 "u")) (by decide) (by decide)

/-! ### C8: IPFS gateway substitution -/

/-- A non-empty pattern occurring as a prefix is found at index `0`. -/
theorem listIndexOf_of_isPrefixOf {s pat : List Char} (hp : pat ≠ [])
    (h : pat.isPrefixOf s = true) : listIndexOf s pat = some 0 := by
  cases s with
  | nil =>
    cases pat with
    | nil => exact absurd rfl hp
    | cons a t => simp [List.isPrefixOf] at h
  | cons a t =>
    unfold listIndexOf
    rw [if_pos h]

/-- Replacing the first occurrence of a pattern that is a prefix
substitutes it at the front. -/
theorem replaceFirstL_isPrefixOf {s pat rep : List Char} (hp : pat ≠ [])
    (h : pat.isPrefixOf s = true) :
    replaceFirstL s pat rep = rep ++ s.drop pat.length := by
  unfold replaceFirstL
  rw [listIndexOf_of_isPrefixOf hp h]
  simp

/-- C8 counterexample: the claim says a URL not using the `ipfs://`
scheme is fetched unchanged, but a URL that merely contains `ipfs://`
after a different scheme is still rewritten by
`patchIPFSUrlsIfApplicable` (its check is `indexOf`, not a scheme
check). -/
theorem C8_nonscheme_url_rewritten :
    patchIPFSUrlsIfApplicable defaultIpfsGateway
        (.scalar (.urlData "keccak256(utf8)" [] "https://x.test/ipfs://Qm")) ≠
      .scalar (.urlData "keccak256(utf8)" [] "https://x.test/ipfs://Qm") := by
  decide

/-- C8 (amended): a URL whose `ipfs://` scheme prefix is its first
occurrence of `ipfs://` is fetched through the configured gateway
substituted for that prefix (the constructor installs the default
gateway when none is configured, and the converted configured gateway
otherwise); a URL not containing `ipfs://` anywhere is fetched
unchanged; but any URL containing `ipfs://` — even not as its scheme —
has its first occurrence substituted. -/
theorem C8_ipfs_gateway (ekn : String → String) (schemas : List Schema)
    (address : Option String) (gw hf : String) (h : Bytes) (url : String)
    (hpre : "ipfs://".data.isPrefixOf url.data = true) :
    patchIPFSUrlsIfApplicable gw (.scalar (.urlData hf h url)) =
      .scalar (.urlData hf h (String.mk (gw.data ++ url.data.drop 7))) ∧
    (∀ url2 : String, strIndexOf url2 "ipfs://" = none →
      patchIPFSUrlsIfApplicable gw (.scalar (.urlData hf h url2)) =
        .scalar (.urlData hf h url2)) ∧
    (mkERC725 ekn schemas address none).ipfsGateway = defaultIpfsGateway ∧
    (∀ g : String, g ≠ "" → (mkERC725 ekn schemas address (some g)).ipfsGateway =
      convertIPFSGatewayUrl g) := by
  refine ⟨?_, ?_, rfl, ?_⟩
  · have hne : url ≠ "" := by
      intro he
      subst he
      simp [List.isPrefixOf] at hpre
    have hne' : (url != "") = true := bne_iff_ne.mpr hne
    have hsome : strIndexOf url "ipfs://" = some 0 :=
      listIndexOf_of_isPrefixOf (by decide) hpre
    simp only [patchIPFSUrlsIfApplicable, hne', hsome, Option.isSome_some, Bool.and_self,
      if_true]
    rw [show replaceFirstStr url "ipfs://" gw =
        String.mk (replaceFirstL url.data "ipfs://".data gw.data) from rfl]
    rw [replaceFirstL_isPrefixOf (by decide) hpre]
    rfl
  · intro url2 h2
    simp only [patchIPFSUrlsIfApplicable, h2, Option.isSome_none, Bool.and_false]
    rw [if_neg (by decide)]
  · intro g hg
    simp only [mkERC725]
    rw [if_pos (bne_iff_ne.mpr hg)]

/-- Witness for C8 at Scenario C: gateway `https://gw/ipfs/` and an
`ipfs://`-scheme URL. -/
theorem C8_ipfs_gateway_witness :
    patchIPFSUrlsIfApplicable "https://gw/ipfs/"
        (.scalar (.urlData "keccak256(utf8)" [] "ipfs://Qm")) =
      .scalar (.urlData "keccak256(utf8)" []
        (String.mk ("https://gw/ipfs/".data ++ "ipfs://Qm".data.drop 7))) ∧
    (∀ url2 : String, strIndexOf url2 "ipfs://" = none →
      patchIPFSUrlsIfApplicable "https://gw/ipfs/"
          (.scalar (.urlData "keccak256(utf8)" [] url2)) =
        .scalar (.urlData "keccak256(utf8)" [] url2)) ∧
    (mkERC725 eknToy [] none none).ipfsGateway = defaultIpfsGateway ∧
    (∀ g : String, g ≠ "" → (mkERC725 eknToy [] none (some g)).ipfsGateway =
      convertIPFSGatewayUrl g) :=
  C8_ipfs_gateway eknToy [] none "https://gw/ipfs/" "keccak256(utf8)" [] "ipfs://Qm"
    (by decide)

/-! ### C9 and C10: unset values and the `Array` key-type guard -/

/-- Looking up the only key of a one-entry snapshot. -/
theorem lookupStr_single_self {α : Type} (k : String) (v : α) :
    lookupStr [(k, v)] k = some v := by
  unfold lookupStr
  rw [List.find?_cons_of_pos _ (by simp)]
  rfl

/-- C9: decoding an unset (null) raw value never throws and yields the
type's neutral value — zero for numbers, the empty string for strings,
false for booleans — and `getData` on an `Array` descriptor whose
length entry is absent returns the empty sequence. -/
theorem C9_null_decodes_neutral (env : Env) (opts : ERC725Options) (dataName : String)
    (s : Schema)
    (hres : getSchemaElement opts.schemas dataName = .ok s)
    (hk : s.keyType = "Array")
    (hraw : env.providerGetData (addressOf opts) s.key = none) :
    decodeKeyValue "uint256" "Number" none = some (.num 0) ∧
    decodeKeyValue "string" "String" none = some (.str "") ∧
    decodeKeyValue "bool" "Boolean" none = some (.boolean false) ∧
    getDataSingle env opts dataName = .ok (some (.arr [])) := by
  refine ⟨by decide, by decide, by decide, ?_⟩
  have hav : getArrayValues env opts s [(s.key, none)] = .ok [] := by
    unfold getArrayValues
    rw [hk]
    rw [if_neg (by decide)]
    rw [lookupStr_single_self]
  simp only [getDataSingle, hres, hraw, hk]
  rw [if_pos (by decide)]
  rw [hav]
  rfl

/-- Witness for C9: an unset length entry decodes the array to the
empty sequence, and unset scalars to their neutral values. -/
theorem C9_null_decodes_neutral_witness :
    decodeKeyValue "uint256" "Number" none = some (.num 0) ∧
    decodeKeyValue "string" "String" none = some (.str "") ∧
    decodeKeyValue "bool" "Boolean" none = some (.boolean false) ∧
    getDataSingle envNull optsC9 "Arr[]" = .ok (some (.arr [])) :=
  C9_null_decodes_neutral envNull optsC9 "Arr[]" schemaArrC9 (by decide) rfl rfl

/-- C10: a registered descriptor whose `keyType` equals `"array"`
under case-insensitive comparison but is not exactly `"Array"` sends
`getData` into the array-handling path, where `getArrayValues` rejects
it (its guard requires the exact string `"Array"`), so the call fails
instead of returning the array's decoded value. -/
theorem C10_lowercase_array_guard (env : Env) (opts : ERC725Options) (dataName a : String)
    (s : Schema)
    (hres : getSchemaElement opts.schemas dataName = .ok s)
    (hk : s.keyType = "array")
    (ha : getAddressAndProvider opts = .ok a) :
    getDataSingle env opts dataName = .error .badArrayKeyType ∧
    getDataOne env opts dataName = .error .badArrayKeyType := by
  have hav : getArrayValues env opts s
      [(s.key, env.providerGetData (addressOf opts) s.key)] = .error .badArrayKeyType := by
    unfold getArrayValues
    rw [hk]
    rw [if_pos (by decide)]
  have hsingle : getDataSingle env opts dataName = .error .badArrayKeyType := by
    simp only [getDataSingle, hres, hk]
    rw [if_pos (by decide)]
    rw [hav]
  refine ⟨hsingle, ?_⟩
  simp only [getDataOne, ha, hsingle]

/-- Witness for C10 at a concrete registered `"array"` descriptor. -/
theorem C10_lowercase_array_guard_witness :
    getDataSingle envNull optsC10 "arr[]" = .error .badArrayKeyType ∧
    getDataOne envNull optsC10 "arr[]" = .error .badArrayKeyType :=
  C10_lowercase_array_guard envNull optsC10 "arr[]" addr42 schemaArrLowerC10
    (by decide) rfl (by decide)

/-! ### C3: unknown names in the multi-key read -/

/-- `getSchemaElement` only ever fails with `SchemaNotFoundError`. -/
theorem getSchemaElement_error_eq {schemas : List Schema} {q : String} {e : Err}
    (h : getSchemaElement schemas q = .error e) : e = .schemaNotFound := by
  unfold getSchemaElement at h
  cases hf : List.find? (fun s => s.name == q || s.key == q) schemas with
  | none =>
    rw [hf] at h
    have h2 : (Except.error Err.schemaNotFound : Except Err Schema) = .error e := h
    injection h2 with h3
    exact h3.symm
  | some s =>
    rw [hf] at h
    have h2 : (Except.ok s : Except Err Schema) = .error e := h
    exact Except.noConfusion h2

/-- C3 counterexample: a batch containing one known and one unknown
name does not map the unknown entry to `null` while decoding the rest;
`getDataMultiple` (and `getData` with a list) aborts the whole batch
with `SchemaNotFoundError`. -/
theorem C3_counterexample :
    getDataMultiple envNull optsC3 ["Known", "Unknown"] = .error .schemaNotFound ∧
    getDataList envNull optsC3 (some ["Known", "Unknown"]) = .error .schemaNotFound := by
  decide

/-- C3 (amended): when any requested name has no matching schema
descriptor, the multi-key read propagates `SchemaNotFoundError`,
aborting the whole batch — no other requested name's value is
returned. -/
theorem C3_unknown_name_aborts (env : Env) (opts : ERC725Options)
    (keyNames : List String) (n : String)
    (hmem : n ∈ keyNames)
    (hnone : getSchemaElement opts.schemas n = .error .schemaNotFound) :
    getDataMultiple env opts keyNames = .error .schemaNotFound := by
  have hres : resolveKeyHashes opts.schemas keyNames = .error .schemaNotFound := by
    induction keyNames with
    | nil => cases hmem
    | cons a t ih =>
      rcases List.mem_cons.mp hmem with rfl | hmem2
      · unfold resolveKeyHashes
        rw [hnone]
      · unfold resolveKeyHashes
        cases hga : getSchemaElement opts.schemas a with
        | error e =>
          have he : e = .schemaNotFound := getSchemaElement_error_eq hga
          subst he
          rfl
        | ok s =>
          rw [ih hmem2]
  simp only [getDataMultiple, hres]

/-- Witness for the amended C3 with the unknown name first. -/
theorem C3_unknown_name_aborts_witness :
    getDataMultiple envNull optsC3 ["Unknown", "Known"] = .error .schemaNotFound :=
  C3_unknown_name_aborts envNull optsC3 ["Unknown", "Known"] "Unknown"
    (by decide) (by decide)

/-! ### C6: swallowed batched-fetch failure during array assembly -/

/-- `filterMap` of a function that is everywhere `some` is a `map`. -/
theorem filterMap_all_some {α β : Type} (f : α → Option β) (g : α → β) (l : List α)
    (h : ∀ a ∈ l, f a = some (g a)) : l.filterMap f = l.map g := by
  induction l with
  | nil => rfl
  | cons x t ih =>
    rw [List.filterMap_cons, h x (by simp), List.map_cons,
      ih (fun a ha => h a (by simp [ha]))]

/-- Looking up a key absent from a one-entry snapshot. -/
theorem lookupStr_single_ne {α : Type} (k k2 : String) (v : α) (h : k ≠ k2) :
    lookupStr [(k, v)] k2 = none := by
  unfold lookupStr
  rw [List.find?_cons_of_neg _ (by simpa using h)]
  rfl

/-- `getArrayValues` in the present-length case reduces to the batched
provider read over the element keys missing from the snapshot. -/
theorem getArrayValues_some_len (env : Env) (opts : ERC725Options) (schema : Schema)
    (data : List (String × Option Bytes)) (lenB : Bytes)
    (hk : schema.keyType = "Array")
    (hlook : lookupStr data schema.key = some (some lenB)) :
    getArrayValues env opts schema data =
      (match env.providerGetAllData (addressOf opts)
          ((List.range (beBytesToNat lenB)).filterMap (fun i =>
            if (lookupStr data (encodeArrayKey schema.key i)).isSome then none
            else some (encodeArrayKey schema.key i))) with
       | .ok l => .ok l
       | .error _ => .ok []) := by
  unfold getArrayValues
  rw [hk, if_neg (by decide), hlook]
  rfl

/-- C6: when the single batched store read for an `Array` descriptor's
missing element keys fails, `getArrayValues` returns an empty result,
`getDataSingle` treats the array as the empty sequence, and the array
pass of `getDataMultiple` (`fillArraySchemas`) leaves the accumulated
object unchanged, so every other entry decodes as usual while the
array entry decodes to the empty sequence. -/
theorem C6_array_fetch_failure_swallowed (env : Env) (opts : ERC725Options)
    (dataName : String) (s : Schema) (lenB : Bytes) (td : List (String × RawInput))
    (hres : getSchemaElement opts.schemas dataName = .ok s)
    (hk : s.keyType = "Array")
    (hlen : env.providerGetData (addressOf opts) s.key = some lenB)
    (hnc : ∀ i, i < beBytesToNat lenB → encodeArrayKey s.key i ≠ s.key)
    (hfail : env.providerGetAllData (addressOf opts)
      ((List.range (beBytesToNat lenB)).map (encodeArrayKey s.key)) = .error ()) :
    getArrayValues env opts s [(s.key, some lenB)] = .ok [] ∧
    getDataSingle env opts dataName = .ok (some (.arr [])) ∧
    (lookupStr td s.key = some (.raw (some lenB)) →
      fillArraySchemas env opts [s] td = .ok td) ∧
    decodeKey s (.raw (some lenB)) = some (.arr []) := by
  have hA : getArrayValues env opts s [(s.key, some lenB)] = .ok [] := by
    rw [getArrayValues_some_len env opts s [(s.key, some lenB)] lenB hk
      (lookupStr_single_self s.key (some lenB))]
    rw [filterMap_all_some _ (encodeArrayKey s.key) _ (fun i hi => by
      rw [lookupStr_single_ne s.key (encodeArrayKey s.key i) (some lenB)
        (fun he => hnc i (List.mem_range.mp hi) he.symm)]
      rfl)]
    rw [hfail]
  refine ⟨hA, ?_, ?_, ?_⟩
  · simp only [getDataSingle, hres, hk, hlen]
    rw [if_pos (by decide)]
    rw [hA]
    rfl
  · intro hlook
    unfold fillArraySchemas
    rw [hlook]
    show (match getArrayValues env opts s [(s.key, some lenB)] with
      | .error e => Except.error e
      | .ok arrayValues =>
        fillArraySchemas env opts []
          (if arrayValues.length > 0 then
            objInsert td s.key (.entries (arrayValues ++ [(⟨s.key, some lenB⟩ : KeyValuePair)]))
          else td)) = .ok td
    rw [hA]
    rfl
  · unfold decodeKey
    rw [hk]
    rw [if_pos (by decide)]

/-- Witness for C6: the failing element-key read leaves the array
empty and the accumulated object unchanged. -/
theorem C6_array_fetch_failure_swallowed_witness :
    getArrayValues envC6 optsC9 schemaArrC9 [("0xAAAA", some [2])] = .ok [] ∧
    getDataSingle envC6 optsC9 "Arr[]" = .ok (some (.arr [])) ∧
    (lookupStr [("0xAAAA", RawInput.raw (some [2]))] "0xAAAA" =
        some (.raw (some [2])) →
      fillArraySchemas envC6 optsC9 [schemaArrC9] [("0xAAAA", RawInput.raw (some [2]))] =
        .ok [("0xAAAA", RawInput.raw (some [2]))]) ∧
    decodeKey schemaArrC9 (.raw (some [2])) = some (.arr []) :=
  C6_array_fetch_failure_swallowed envC6 optsC9 "Arr[]" schemaArrC9 [2]
    [("0xAAAA", RawInput.raw (some [2]))] (by decide) rfl (by decide) (by decide) (by decide)

/-! ### C5: overlay of external resolutions onto the result mapping -/

/-- C5 fails on the code: with two authentic external-reference
entries, `fetchData` overlays only the first — the `async` reduce
callback of `getDataFromExternalSources` never awaits its accumulator,
so the second entry's result is assigned onto an intermediate Promise
object and discarded, leaving the raw decoded reference in the result —
although the per-entry resolution of the second entry would have
produced its fetched content. -/
theorem C5_second_external_entry_not_overlaid :
    fetchDataList envC5 optsC5 (some ["J1", "J2"]) =
      .ok [("J1", some (.scalar (.bytes [10]))),
           ("J2", some (.scalar (.urlData "keccak256(utf8)" hashTwo "b")))] ∧
    resolveExternalEntry envC5 defaultIpfsGateway
        (some (.scalar (.urlData "keccak256(utf8)" hashTwo "b"))) =
      .ok (some (.scalar (.bytes [20]))) := by
  constructor
  · decide
  · decide
